import Mathlib

/-!
Shallow embedding of the adaptive text-layout algorithm of the LEDMatrix
christmas-countdown plugin (the method named with an underscore prefix,
calculate_text_layout, in manager.py), together with theorems about its
best-fit selection, fallback and centering behaviour.

Python integer arithmetic is modelled on `Int`, with `Int.fdiv` for
Python's floor division `//`.  A measurement operation that may raise is
modelled as returning `Option Int` (`none` = the call raises); an
uncaught exception escaping the layout routine itself is modelled by the
routine returning `none`.
-/

/-- A font handle together with the measurement operations the layout code
applies to it: `display_manager.get_font_height(font)` (may raise),
the optional `font.size` attribute, and
`display_manager.get_text_width(line, font)` (may raise per call). -/
structure Font where
  getFontHeight : Option Int
  size : Option Int
  getTextWidth : String → Option Int

/-- The three font slots of the display manager, ordered largest first. -/
structure DisplayManager where
  regular_font : Font
  small_font : Font
  extra_small_font : Font

/-- The layout dictionary returned by the routine (manager.py lines 236-242). -/
structure Layout where
  font : Font
  line_height : Int
  total_text_height : Int
  start_y : Int
  use_small_font : Bool

/-- Lines 163-170: line height of a font (`get_font_height(font) + 2`,
falling back to `font.size + 2` when the probe raises, then to `8` for
small fonts / `10` for regular ones). -/
def lineHeightOf (font : Font) (use_small : Bool) : Int :=
  match font.getFontHeight with
  | some h => h + 2
  | none =>
    match font.size with
    | some s => s + 2
    | none => if use_small then 8 else 10

/-- Line 184: conservative width estimate used when width measurement
raises: `len(line) * (6 if use_small else 8)`. -/
def estimatedWidth (use_small : Bool) (line : String) : Int :=
  (line.length : Int) * (if use_small then 6 else 8)

/-- Lines 172-188: the per-candidate width loop.  Returns the running
`max_line_width` accumulator and the `all_lines_fit` flag; the loop breaks
at the first line whose (measured or estimated) width exceeds
`available_text_width`. -/
def widthScan (font : Font) (use_small : Bool) (available_text_width : Int) :
    List String → Int → Int × Bool
  | [], max_line_width => (max_line_width, true)
  | line :: rest, max_line_width =>
    match font.getTextWidth line with
    | some line_width =>
      let m := max max_line_width line_width
      if line_width > available_text_width then (m, false)
      else widthScan font use_small available_text_width rest m
    | none =>
      if estimatedWidth use_small line > available_text_width then (max_line_width, false)
      else widthScan font use_small available_text_width rest
        (max max_line_width (estimatedWidth use_small line))

/-- The candidate acceptance test of lines 172-198: every line fits the
available width, and the total height `num_lines * line_height` does not
exceed the available height. -/
def candidateFits (lines : List String) (available_text_width available_text_height : Int)
    (p : Font × Bool) : Bool :=
  (widthScan p.1 p.2 available_text_width lines 0).2 &&
    decide ((lines.length : Int) * lineHeightOf p.1 p.2 ≤ available_text_height)

/-- Lines 159-205: scan the candidates largest-to-smallest and return the
first one that fits both width and height (with its line height and total
height), or `none` when every candidate is rejected. -/
def selectFont (lines : List String) (available_text_width available_text_height : Int) :
    List (Font × Bool) → Option (Font × Bool × Int × Int)
  | [] => none
  | (font, use_small) :: rest =>
    let line_height := lineHeightOf font use_small
    if (widthScan font use_small available_text_width lines 0).2 then
      if (lines.length : Int) * line_height > available_text_height then
        selectFont lines available_text_width available_text_height rest
      else
        some (font, use_small, line_height, (lines.length : Int) * line_height)
    else
      selectFont lines available_text_width available_text_height rest

/-- Lines 136-139: the text region is the right half of the display minus
a 4-pixel margin. -/
def availableTextWidth (width : Int) : Int :=
  let left_half_width := Int.fdiv width 2
  let right_half_width := width - left_half_width
  right_half_width - 4

/-- Line 142: available height is the display height minus a 4-pixel margin. -/
def availableTextHeight (height : Int) : Int :=
  height - 4

/-- Lines 148-152: candidate fonts, tried largest first. -/
def fontOptions (dm : DisplayManager) : List (Font × Bool) :=
  [(dm.regular_font, false), (dm.small_font, true), (dm.extra_small_font, true)]

/-- Lines 119-242: the layout routine.  `none` models the
`ZeroDivisionError` raised by `available_text_height // num_lines` when the
fallback shrink path is reached with an empty line list. -/
def calculateTextLayout (dm : DisplayManager) (width height : Int) (lines : List String) :
    Option Layout :=
  let available_text_width := availableTextWidth width
  let available_text_height := availableTextHeight height
  let num_lines : Int := (lines.length : Int)
  match selectFont lines available_text_width available_text_height (fontOptions dm) with
  | some (best_font, best_use_small, best_line_height, best_total_height) =>
    some { font := best_font, line_height := best_line_height,
           total_text_height := best_total_height,
           start_y := Int.fdiv (height - best_total_height) 2,
           use_small_font := best_use_small }
  | none =>
    let best_font := dm.extra_small_font
    let best_line_height := lineHeightOf best_font true
    let best_total_height := num_lines * best_line_height
    if best_total_height > available_text_height then
      if num_lines = 0 then
        none
      else
        let min_line_height := best_line_height - 2
        let max_allowed_line_height := Int.fdiv available_text_height num_lines
        let shrunk_line_height := max min_line_height max_allowed_line_height
        some { font := best_font, line_height := shrunk_line_height,
               total_text_height := shrunk_line_height * num_lines,
               start_y := Int.fdiv (height - shrunk_line_height * num_lines) 2,
               use_small_font := true }
    else
      some { font := best_font, line_height := best_line_height,
             total_text_height := best_total_height,
             start_y := Int.fdiv (height - best_total_height) 2,
             use_small_font := true }

/-- Spec-side definition (spec section 4.1 step 1b), for the
estimate-substitution claim: width acceptance computed from the
character-count estimates alone. -/
def estimateFit (use_small : Bool) (available_text_width : Int) (lines : List String) : Bool :=
  lines.all fun line => decide (estimatedWidth use_small line ≤ available_text_width)

/-- Spec-side candidate scan in which every width check uses the estimate,
for comparison with `selectFont` when all width measurements fail. -/
def selectFontEstimate (lines : List String) (available_text_width available_text_height : Int) :
    List (Font × Bool) → Option (Font × Bool × Int × Int)
  | [] => none
  | (font, use_small) :: rest =>
    let line_height := lineHeightOf font use_small
    if estimateFit use_small available_text_width lines then
      if (lines.length : Int) * line_height > available_text_height then
        selectFontEstimate lines available_text_width available_text_height rest
      else
        some (font, use_small, line_height, (lines.length : Int) * line_height)
    else
      selectFontEstimate lines available_text_width available_text_height rest

/-- A concrete font whose height probe returns `fh` and whose width probe
returns `wpc` pixels per character. -/
def mkFont (fh wpc : Int) : Font :=
  { getFontHeight := some fh, size := none, getTextWidth := fun s => some (wpc * (s.length : Int)) }

/-- A display manager with three distinct concrete fonts. -/
def dmW : DisplayManager :=
  { regular_font := mkFont 10 6, small_font := mkFont 6 4, extra_small_font := mkFont 4 3 }

/-- A display manager whose three slots hold the same font with an
8-pixel line height (the "only candidate" of the small-region scenario). -/
def dm4 : DisplayManager :=
  { regular_font := mkFont 6 4, small_font := mkFont 6 4, extra_small_font := mkFont 6 4 }

/-- A display manager whose every width probe raises. -/
def dmFail : DisplayManager :=
  { regular_font := { getFontHeight := some 10, size := none, getTextWidth := fun _ => none },
    small_font := { getFontHeight := some 6, size := none, getTextWidth := fun _ => none },
    extra_small_font := { getFontHeight := some 4, size := none, getTextWidth := fun _ => none } }

/-- The candidate scan returns exactly the first candidate in order that
passes the acceptance test `candidateFits`. -/
theorem selectFont_eq_findFirst (lines : List String)
    (available_text_width available_text_height : Int) (opts : List (Font × Bool)) :
    selectFont lines available_text_width available_text_height opts =
      (opts.find? (candidateFits lines available_text_width available_text_height)).map
        (fun p => (p.1, p.2, lineHeightOf p.1 p.2,
          (lines.length : Int) * lineHeightOf p.1 p.2)) := by
  induction opts with
  | nil => rfl
  | cons p rest ih =>
    obtain ⟨font, use_small⟩ := p
    by_cases hw : (widthScan font use_small available_text_width lines 0).2
    · by_cases hh :
        (lines.length : Int) * lineHeightOf font use_small > available_text_height
      · have hc : candidateFits lines available_text_width available_text_height
            (font, use_small) = false := by
          simp [candidateFits, hw]
          omega
        simp [selectFont, List.find?, hw, hh, hc, ih]
      · have hc : candidateFits lines available_text_width available_text_height
            (font, use_small) = true := by
          simp [candidateFits, hw]
          omega
        simp [selectFont, List.find?, hw, hh, hc]
    · have hc : candidateFits lines available_text_width available_text_height
          (font, use_small) = false := by
        simp [candidateFits, hw]
      simp [selectFont, List.find?, hw, hc, ih]

/-- Helper: the layout returned when the candidate scan finds a fitting
candidate `p`. -/
theorem calculateTextLayout_of_find (dm : DisplayManager) (width height : Int)
    (lines : List String) (p : Font × Bool)
    (hfind : (fontOptions dm).find?
        (candidateFits lines (availableTextWidth width) (availableTextHeight height)) =
      some p) :
    calculateTextLayout dm width height lines =
      some { font := p.1, line_height := lineHeightOf p.1 p.2,
             total_text_height := (lines.length : Int) * lineHeightOf p.1 p.2,
             start_y := Int.fdiv (height - (lines.length : Int) * lineHeightOf p.1 p.2) 2,
             use_small_font := p.2 } := by
  simp [calculateTextLayout, selectFont_eq_findFirst, hfind]

/-- C1: Best-fit selection.  Whenever some candidate passes both the width
check and the height check, `calculateTextLayout` returns the layout built
from the first candidate in order (largest to smallest) that passes both —
never a strictly smaller candidate that would also have fit, as
`List.find?` returns the earliest match. -/
theorem c1_best_fit_selection (dm : DisplayManager) (width height : Int)
    (lines : List String) (p : Font × Bool)
    (hfind : (fontOptions dm).find?
        (candidateFits lines (availableTextWidth width) (availableTextHeight height)) =
      some p) :
    calculateTextLayout dm width height lines =
      some { font := p.1, line_height := lineHeightOf p.1 p.2,
             total_text_height := (lines.length : Int) * lineHeightOf p.1 p.2,
             start_y := Int.fdiv (height - (lines.length : Int) * lineHeightOf p.1 p.2) 2,
             use_small_font := p.2 } :=
  calculateTextLayout_of_find dm width height lines p hfind

/-- C1 witness: on a 64x32 display with lines MERRY / CHRISTMAS and the
concrete fonts of `dmW`, the regular and small fonts fail the width check
and the extra-small font (the first fitting candidate) is selected. -/
theorem c1_best_fit_selection_witness :
    calculateTextLayout dmW 64 32 ["MERRY", "CHRISTMAS"] =
      some { font := mkFont 4 3, line_height := 6, total_text_height := 12,
             start_y := 10, use_small_font := true } :=
  c1_best_fit_selection dmW 64 32 ["MERRY", "CHRISTMAS"] (mkFont 4 3, true) rfl

/-- C5: Centering invariant.  In the non-fallback path (some candidate
fits), the returned vertical start offset is
`(height - total_text_height) // 2` under floor division. -/
theorem c5_centering_invariant (dm : DisplayManager) (width height : Int)
    (lines : List String) (p : Font × Bool)
    (hfind : (fontOptions dm).find?
        (candidateFits lines (availableTextWidth width) (availableTextHeight height)) =
      some p) :
    ∃ l, calculateTextLayout dm width height lines = some l ∧
      l.start_y = Int.fdiv (height - l.total_text_height) 2 :=
  ⟨_, calculateTextLayout_of_find dm width height lines p hfind, rfl⟩

/-- C5 witness: concrete non-fallback run with centered start offset
`(32 - 12) // 2 = 10`. -/
theorem c5_centering_invariant_witness :
    ∃ l, calculateTextLayout dmW 64 32 ["MERRY", "CHRISTMAS"] = some l ∧
      l.start_y = Int.fdiv (32 - l.total_text_height) 2 :=
  c5_centering_invariant dmW 64 32 ["MERRY", "CHRISTMAS"] (mkFont 4 3, true) rfl

/-- C9: Result-shape invariant on every path, fallback included: any
returned layout satisfies `total_text_height = line_height * len(lines)`
and `start_y = (height - total_text_height) // 2`. -/
theorem c9_result_shape (dm : DisplayManager) (width height : Int)
    (lines : List String) (l : Layout)
    (hl : calculateTextLayout dm width height lines = some l) :
    l.total_text_height = l.line_height * (lines.length : Int) ∧
      l.start_y = Int.fdiv (height - l.total_text_height) 2 := by
  rw [calculateTextLayout, selectFont_eq_findFirst] at hl
  cases hfind : (fontOptions dm).find?
      (candidateFits lines (availableTextWidth width) (availableTextHeight height)) with
  | some p =>
    rw [hfind] at hl
    simp only [Option.map_some', Option.some.injEq] at hl
    subst hl
    exact ⟨mul_comm _ _, rfl⟩
  | none =>
    rw [hfind] at hl
    simp only [Option.map_none'] at hl
    split at hl
    · split at hl
      · exact absurd hl (by simp)
      · simp only [Option.some.injEq] at hl
        subst hl
        exact ⟨rfl, rfl⟩
    · simp only [Option.some.injEq] at hl
      subst hl
      exact ⟨mul_comm _ _, rfl⟩

/-- C9 witness: concrete fallback run (region 20x10, four lines): the
returned layout has total height `6 * 4 = 24` and start offset
`(10 - 24) // 2 = -7`. -/
theorem c9_result_shape_witness :
    (Layout.total_text_height
        { font := mkFont 6 4, line_height := 6, total_text_height := 24,
          start_y := -7, use_small_font := true } = 6 * (4 : Int)) ∧
      (Layout.start_y
        { font := mkFont 6 4, line_height := 6, total_text_height := 24,
          start_y := -7, use_small_font := true } = Int.fdiv (10 - 24) 2) := by
  have h := c9_result_shape dm4 20 10 ["1", "DAYS", "UNTIL", "XMAS"]
    { font := mkFont 6 4, line_height := 6, total_text_height := 24,
      start_y := -7, use_small_font := true } rfl
  exact h

/-- Helper: when every candidate is rejected, `find?` comes up empty. -/
theorem findFirst_eq_none_of_nofit (dm : DisplayManager)
    (lines : List String) (available_text_width available_text_height : Int)
    (hnofit : ∀ q ∈ fontOptions dm,
      candidateFits lines available_text_width available_text_height q = false) :
    (fontOptions dm).find?
        (candidateFits lines available_text_width available_text_height) = none := by
  rw [List.find?_eq_none]
  intro q hq
  simp [hnofit q hq]

/-- C2: Fallback guarantee.  When every candidate is rejected, the routine
does not fail: it returns a layout that uses the smallest (extra-small)
candidate, with `line_height >= 1` and
`total_text_height = line_height * len(lines)`.  The hypotheses require a
nonempty line list (a stated input constraint) and a smallest-candidate
line height of at least 3, i.e. a measured font height of at least one
pixel. -/
theorem c2_fallback_guarantee (dm : DisplayManager) (width height : Int)
    (lines : List String)
    (hne : lines ≠ [])
    (hlh : 3 ≤ lineHeightOf dm.extra_small_font true)
    (hnofit : ∀ q ∈ fontOptions dm,
      candidateFits lines (availableTextWidth width) (availableTextHeight height) q = false) :
    ∃ l, calculateTextLayout dm width height lines = some l ∧
      l.font = dm.extra_small_font ∧
      1 ≤ l.line_height ∧
      l.total_text_height = l.line_height * (lines.length : Int) := by
  have hfind := findFirst_eq_none_of_nofit dm lines _ _ hnofit
  rw [calculateTextLayout, selectFont_eq_findFirst, hfind]
  simp only [Option.map_none']
  by_cases htall : (lines.length : Int) * lineHeightOf dm.extra_small_font true >
      availableTextHeight height
  · have hn0 : (lines.length : Int) ≠ 0 := by
      have h0 : lines.length ≠ 0 := by simpa using hne
      exact_mod_cast h0
    rw [if_pos htall, if_neg hn0]
    refine ⟨_, rfl, rfl, ?_, rfl⟩
    show (1 : Int) ≤ max (lineHeightOf dm.extra_small_font true - 2)
      (Int.fdiv (availableTextHeight height) (lines.length : Int))
    exact le_max_of_le_left (by omega)
  · rw [if_neg htall]
    refine ⟨_, rfl, rfl, ?_, mul_comm _ _⟩
    show (1 : Int) ≤ lineHeightOf dm.extra_small_font true
    omega

/-- C2 witness: region 20x10 with four lines and an 8-pixel smallest line
height; every candidate is rejected, yet a layout with positive line
height is returned. -/
theorem c2_fallback_guarantee_witness :
    ∃ l, calculateTextLayout dm4 20 10 ["1", "DAYS", "UNTIL", "XMAS"] = some l ∧
      l.font = dm4.extra_small_font ∧
      1 ≤ l.line_height ∧
      l.total_text_height = l.line_height * ((["1", "DAYS", "UNTIL", "XMAS"].length : Nat) : Int) :=
  c2_fallback_guarantee dm4 20 10 ["1", "DAYS", "UNTIL", "XMAS"]
    (by simp) (by decide) (by decide)

/-- C3: Fallback shrink formula.  In the fallback path, when the smallest
candidate's recomputed total height exceeds the available region height
(`height - 4`, the region the routine reserves after margins), the line
height becomes exactly
`max (line_height - 2) ((height - 4) // len(lines))` — the inter-line
spacing is 2 — and the total height is recomputed as that shrunk line
height times the number of lines. -/
theorem c3_fallback_shrink_formula (dm : DisplayManager) (width height : Int)
    (lines : List String)
    (hne : lines ≠ [])
    (hnofit : ∀ q ∈ fontOptions dm,
      candidateFits lines (availableTextWidth width) (availableTextHeight height) q = false)
    (htall : (lines.length : Int) * lineHeightOf dm.extra_small_font true >
      availableTextHeight height) :
    ∃ l, calculateTextLayout dm width height lines = some l ∧
      l.line_height = max (lineHeightOf dm.extra_small_font true - 2)
        (Int.fdiv (availableTextHeight height) (lines.length : Int)) ∧
      l.total_text_height = l.line_height * (lines.length : Int) := by
  have hfind := findFirst_eq_none_of_nofit dm lines _ _ hnofit
  rw [calculateTextLayout, selectFont_eq_findFirst, hfind]
  simp only [Option.map_none']
  have hn0 : (lines.length : Int) ≠ 0 := by
    have h0 : lines.length ≠ 0 := by simpa using hne
    exact_mod_cast h0
  rw [if_pos htall, if_neg hn0]
  exact ⟨_, rfl, rfl, rfl⟩

/-- C3 witness: region 20x10, four lines, smallest line height 8: shrunk
line height is `max (8 - 2) ((10 - 4) // 4) = 6` and the total height is
`6 * 4 = 24`. -/
theorem c3_fallback_shrink_formula_witness :
    ∃ l, calculateTextLayout dm4 20 10 ["1", "DAYS", "UNTIL", "XMAS"] = some l ∧
      l.line_height = max (lineHeightOf dm4.extra_small_font true - 2)
        (Int.fdiv (availableTextHeight 10) ((["1", "DAYS", "UNTIL", "XMAS"].length : Nat) : Int)) ∧
      l.total_text_height = l.line_height * ((["1", "DAYS", "UNTIL", "XMAS"].length : Nat) : Int) :=
  c3_fallback_shrink_formula dm4 20 10 ["1", "DAYS", "UNTIL", "XMAS"]
    (by simp) (by decide) (by decide)

/-- C4 counterexample: in the 20x10 scenario with lines 1 / DAYS / UNTIL /
XMAS and a sole 8-pixel-line candidate, the routine does NOT produce the
claimed `line_height = 2`, `total_height = 8`, `start_offset = 1`:
`max(8-2, ...)` is `6`, not `2`, so the shrunk layout is `6 / 24 / -7`. -/
theorem c4_scenario_counterexample :
    ¬ ∃ l, calculateTextLayout dm4 20 10 ["1", "DAYS", "UNTIL", "XMAS"] = some l ∧
        l.line_height = 2 ∧ l.total_text_height = 8 ∧ l.start_y = 1 := by
  rintro ⟨l, hl, h2, -, -⟩
  have hv : calculateTextLayout dm4 20 10 ["1", "DAYS", "UNTIL", "XMAS"] =
      some { font := mkFont 6 4, line_height := 6, total_text_height := 24,
             start_y := -7, use_small_font := true } := rfl
  rw [hv] at hl
  cases Option.some.inj hl
  norm_num at h2

/-- C4 amended: the scenario takes the fallback path (total 32 exceeds the
available height `10 - 4 = 6`) and shrinks the line height to
`max (8 - 2) ((10 - 4) // 4) = 6`, yielding total height 24 and start
offset `(10 - 24) // 2 = -7`. -/
theorem c4_scenario_amended :
    calculateTextLayout dm4 20 10 ["1", "DAYS", "UNTIL", "XMAS"] =
      some { font := dm4.extra_small_font, line_height := 6, total_text_height := 24,
             start_y := -7, use_small_font := true } := rfl

/-- C6 counterexample: with an empty line list (64x32 display) the routine
raises nothing and silently returns a degenerate layout of total height 0,
instead of signaling the precondition violation. -/
theorem c6_empty_lines_counterexample :
    ∃ l, calculateTextLayout dm4 64 32 [] = some l ∧ l.total_text_height = 0 :=
  ⟨_, rfl, rfl⟩

/-- C6 amended: an empty line list is not signaled as an error whenever the
display height is at least 4: the first (regular) candidate trivially fits
and a degenerate layout with total text height 0 is silently returned. -/
theorem c6_empty_lines_amended (dm : DisplayManager) (width height : Int)
    (h4 : 4 ≤ height) :
    ∃ l, calculateTextLayout dm width height [] = some l ∧
      l.total_text_height = 0 ∧ l.font = dm.regular_font ∧ l.use_small_font = false := by
  have hfit : candidateFits [] (availableTextWidth width) (availableTextHeight height)
      (dm.regular_font, false) = true := by
    simp [candidateFits, widthScan, availableTextHeight]
    omega
  have hfind : (fontOptions dm).find?
      (candidateFits [] (availableTextWidth width) (availableTextHeight height)) =
        some (dm.regular_font, false) := by
    simp [fontOptions, List.find?, hfit]
  refine ⟨_, calculateTextLayout_of_find dm width height [] (dm.regular_font, false) hfind,
    ?_, rfl, rfl⟩
  show ((List.length ([] : List String) : Nat) : Int) * lineHeightOf dm.regular_font false = 0
  simp

/-- C6 amended witness: the degenerate silent return at a concrete input. -/
theorem c6_empty_lines_amended_witness :
    ∃ l, calculateTextLayout dm4 64 32 [] = some l ∧
      l.total_text_height = 0 ∧ l.font = dm4.regular_font ∧ l.use_small_font = false :=
  c6_empty_lines_amended dm4 64 32 (by norm_num)

/-- Helper: when every width probe of `font` raises, the width loop
computes exactly the estimate-only check of the spec. -/
theorem widthScan_of_fail (font : Font) (use_small : Bool) (avail : Int)
    (hf : ∀ s, font.getTextWidth s = none) :
    ∀ (lines : List String) (mw : Int),
      (widthScan font use_small avail lines mw).2 = estimateFit use_small avail lines := by
  intro lines
  induction lines with
  | nil =>
    intro mw
    rfl
  | cons line rest ih =>
    intro mw
    simp only [widthScan, hf line, estimateFit, List.all_cons]
    by_cases hgt : estimatedWidth use_small line > avail
    · have hle : ¬ estimatedWidth use_small line ≤ avail := not_le.mpr hgt
      simp [hgt, hle]
    · have hle : estimatedWidth use_small line ≤ avail := not_lt.mp hgt
      simp [hgt, hle, ih, estimateFit]

/-- Helper: when every candidate's width probe raises, the candidate scan
coincides with the estimate-only scan. -/
theorem selectFont_eq_estimate (lines : List String)
    (available_text_width available_text_height : Int) :
    ∀ opts : List (Font × Bool),
      (∀ q ∈ opts, ∀ s, (q.1).getTextWidth s = none) →
      selectFont lines available_text_width available_text_height opts =
        selectFontEstimate lines available_text_width available_text_height opts := by
  intro opts
  induction opts with
  | nil =>
    intro _
    rfl
  | cons q rest ih =>
    intro hall
    obtain ⟨font, use_small⟩ := q
    have hf : ∀ s, font.getTextWidth s = none := fun s => hall (font, use_small) (by simp) s
    have hrest := ih fun r hr => hall r (List.mem_cons_of_mem _ hr)
    simp only [selectFont, selectFontEstimate,
      widthScan_of_fail font use_small available_text_width hf lines 0, hrest]

/-- Helper: with a nonempty line list the routine always returns a layout
(no exception escapes on any path). -/
theorem calculateTextLayout_isSome (dm : DisplayManager) (width height : Int)
    (lines : List String) (hne : lines ≠ []) :
    ∃ l, calculateTextLayout dm width height lines = some l := by
  have hn0 : (lines.length : Int) ≠ 0 := by
    have h0 : lines.length ≠ 0 := by simpa using hne
    exact_mod_cast h0
  cases hsel : selectFont lines (availableTextWidth width) (availableTextHeight height)
      (fontOptions dm) with
  | some q =>
    obtain ⟨f, us, lh, th⟩ := q
    exact ⟨_, by simp only [calculateTextLayout, hsel]; rfl⟩
  | none =>
    by_cases htall : (lines.length : Int) * lineHeightOf dm.extra_small_font true >
        availableTextHeight height
    · exact ⟨_, by simp only [calculateTextLayout, hsel]; rw [if_pos htall, if_neg hn0]⟩
    · exact ⟨_, by simp only [calculateTextLayout, hsel]; rw [if_neg htall]⟩

/-- C7: Estimate substitution.  When every width probe raises, the routine
still returns normally (for a nonempty line list), and the candidate scan
is exactly the scan driven by the `len(line) * (6 or 8)` estimates: the
choice is determined solely by the estimates. -/
theorem c7_estimate_substitution (dm : DisplayManager) (width height : Int)
    (lines : List String)
    (hr : ∀ s, dm.regular_font.getTextWidth s = none)
    (hs : ∀ s, dm.small_font.getTextWidth s = none)
    (he : ∀ s, dm.extra_small_font.getTextWidth s = none)
    (hne : lines ≠ []) :
    (∃ l, calculateTextLayout dm width height lines = some l) ∧
      selectFont lines (availableTextWidth width) (availableTextHeight height)
          (fontOptions dm) =
        selectFontEstimate lines (availableTextWidth width) (availableTextHeight height)
          (fontOptions dm) := by
  have hall : ∀ q ∈ fontOptions dm, ∀ s, (q.1).getTextWidth s = none := by
    intro q hq
    simp only [fontOptions, List.mem_cons, List.not_mem_nil, or_false] at hq
    rcases hq with rfl | rfl | rfl
    · exact hr
    · exact hs
    · exact he
  exact ⟨calculateTextLayout_isSome dm width height lines hne,
    selectFont_eq_estimate lines _ _ (fontOptions dm) hall⟩

/-- C7 witness: concrete display manager whose every width probe raises. -/
theorem c7_estimate_substitution_witness :
    (∃ l, calculateTextLayout dmFail 64 32 ["MERRY", "CHRISTMAS"] = some l) ∧
      selectFont ["MERRY", "CHRISTMAS"] (availableTextWidth 64) (availableTextHeight 32)
          (fontOptions dmFail) =
        selectFontEstimate ["MERRY", "CHRISTMAS"] (availableTextWidth 64)
          (availableTextHeight 32) (fontOptions dmFail) :=
  c7_estimate_substitution dmFail 64 32 ["MERRY", "CHRISTMAS"]
    (fun _ => rfl) (fun _ => rfl) (fun _ => rfl) (by simp)

/-- Helper: fonts with extensionally equal measurement operations are
equal. -/
theorem Font.eq_of_measurements (f g : Font)
    (h1 : f.getFontHeight = g.getFontHeight) (h2 : f.size = g.size)
    (h3 : ∀ s, f.getTextWidth s = g.getTextWidth s) : f = g := by
  cases f
  cases g
  simp only [Font.mk.injEq]
  exact ⟨h1, h2, funext h3⟩

/-- C8: Determinism.  Two calls with identical region dimensions, line
lists, and (extensionally) identical deterministic measurement operations
return identical layouts: the routine is a pure function of its inputs. -/
theorem c8_determinism (dm1 dm2 : DisplayManager) (width height : Int) (lines : List String)
    (hr1 : dm1.regular_font.getFontHeight = dm2.regular_font.getFontHeight)
    (hr2 : dm1.regular_font.size = dm2.regular_font.size)
    (hr3 : ∀ s, dm1.regular_font.getTextWidth s = dm2.regular_font.getTextWidth s)
    (hs1 : dm1.small_font.getFontHeight = dm2.small_font.getFontHeight)
    (hs2 : dm1.small_font.size = dm2.small_font.size)
    (hs3 : ∀ s, dm1.small_font.getTextWidth s = dm2.small_font.getTextWidth s)
    (he1 : dm1.extra_small_font.getFontHeight = dm2.extra_small_font.getFontHeight)
    (he2 : dm1.extra_small_font.size = dm2.extra_small_font.size)
    (he3 : ∀ s, dm1.extra_small_font.getTextWidth s = dm2.extra_small_font.getTextWidth s) :
    calculateTextLayout dm1 width height lines = calculateTextLayout dm2 width height lines := by
  have hreg := Font.eq_of_measurements _ _ hr1 hr2 hr3
  have hsm := Font.eq_of_measurements _ _ hs1 hs2 hs3
  have hex := Font.eq_of_measurements _ _ he1 he2 he3
  have hdm : dm1 = dm2 := by
    cases dm1
    cases dm2
    simp only [DisplayManager.mk.injEq]
    exact ⟨hreg, hsm, hex⟩
  rw [hdm]

/-- C8 witness: two calls with the same concrete inputs agree. -/
theorem c8_determinism_witness :
    calculateTextLayout dmW 64 32 ["MERRY", "CHRISTMAS"] =
      calculateTextLayout dmW 64 32 ["MERRY", "CHRISTMAS"] :=
  c8_determinism dmW dmW 64 32 ["MERRY", "CHRISTMAS"] rfl rfl (fun _ => rfl)
    rfl rfl (fun _ => rfl) rfl rfl (fun _ => rfl)

/-- C10: Font-flag consistency.  Provided the three candidate fonts are
distinct, every returned layout has `use_small_font = false` exactly when
the selected font is the regular (largest) candidate; and whenever the
candidate scan rejects everything, the fallback returns the extra-small
font with `use_small_font = true`. -/
theorem c10_font_flag_consistency (dm : DisplayManager) (width height : Int)
    (lines : List String) (l : Layout)
    (hsr : dm.small_font ≠ dm.regular_font)
    (her : dm.extra_small_font ≠ dm.regular_font)
    (hl : calculateTextLayout dm width height lines = some l) :
    (l.use_small_font = false ↔ l.font = dm.regular_font) ∧
      (selectFont lines (availableTextWidth width) (availableTextHeight height)
          (fontOptions dm) = none →
        l.font = dm.extra_small_font ∧ l.use_small_font = true) := by
  rw [calculateTextLayout, selectFont_eq_findFirst] at hl
  cases hfind : (fontOptions dm).find?
      (candidateFits lines (availableTextWidth width) (availableTextHeight height)) with
  | some p =>
    rw [hfind] at hl
    simp only [Option.map_some', Option.some.injEq] at hl
    subst hl
    have hsome : ∀ P : Prop,
        selectFont lines (availableTextWidth width) (availableTextHeight height)
          (fontOptions dm) = none → P := by
      intro P hn
      rw [selectFont_eq_findFirst, hfind] at hn
      simp at hn
    have hmem : p ∈ fontOptions dm := List.mem_of_find?_eq_some hfind
    simp only [fontOptions, List.mem_cons, List.not_mem_nil, or_false] at hmem
    rcases hmem with rfl | rfl | rfl
    · exact ⟨by simp, hsome _⟩
    · exact ⟨by simp [hsr], hsome _⟩
    · exact ⟨by simp [her], hsome _⟩
  | none =>
    rw [hfind] at hl
    simp only [Option.map_none'] at hl
    split at hl
    · split at hl
      · exact absurd hl (by simp)
      · simp only [Option.some.injEq] at hl
        subst hl
        exact ⟨by simp [her], fun _ => ⟨rfl, rfl⟩⟩
    · simp only [Option.some.injEq] at hl
      subst hl
      exact ⟨by simp [her], fun _ => ⟨rfl, rfl⟩⟩

/-- C10 witness: concrete run with three distinct fonts; the extra-small
candidate is selected, the flag is true and the font is not the regular
one. -/
theorem c10_font_flag_consistency_witness :
    ∃ l, calculateTextLayout dmW 64 32 ["MERRY", "CHRISTMAS"] = some l ∧
      (l.use_small_font = false ↔ l.font = dmW.regular_font) :=
  ⟨_, rfl,
    (c10_font_flag_consistency dmW 64 32 ["MERRY", "CHRISTMAS"] _
      (fun h => absurd (congrArg Font.getFontHeight h) (by decide))
      (fun h => absurd (congrArg Font.getFontHeight h) (by decide)) rfl).1⟩
